import Mathlib

/-!
Verification of the rippled sample: the SQLite write-ahead-log checkpoint
coordinator (`WALCheckpointer` in `src/ripple/app/data/SociDB.cpp`) and the
bounded per-subscriber event queue (`RPCSub`).

Shallow embedding conventions:
* Raw pointers are `Nat`, with `0` standing for the null pointer.
* A C++ function that throws is embedded as `Except String _`, carrying the
  thrown message.
* Mutex-protected critical sections become single atomic steps of a pure
  transition function; the ghost fields (`inFlight`, `stamped`, `delivered`)
  record observable effects (jobs queued or executing, sequence stamps
  handed out, delivery attempts) that the C++ code performs through its
  collaborators.
-/

namespace SociDB

/-- `static auto checkpointPageCount = 1000;` (SociDB.cpp line 31). -/
def checkpointPageCount : Int := 1000

/-- sqlite result code `SQLITE_OK`. -/
def SQLITE_OK : Int := 0

/-- sqlite result code `SQLITE_LOCKED`. -/
def SQLITE_LOCKED : Int := 6

/-- Severity levels used by `WriteLog` in this translation unit. -/
inductive LogLevel where
  | lsTRACE
  | lsDEBUG
  | lsINFO
  | lsWARNING
  deriving DecidableEq, Repr

/-- The mutable state of a `WALCheckpointer` that the claims are about:
the `running_` flag guarded by `mutex_`.  The `conn_` reference, the mutex
itself and the `jobQueue_` reference are external handles with no further
state of their own in this embedding. -/
structure WALCheckpointer where
  running_ : Bool
  deriving DecidableEq, Repr

/-- `WALCheckpointer::runCheckpoint (const char* db, int pages)`
(SociDB.cpp lines 225-243).  Returns the updated checkpointer state and the
number of jobs handed to `jobQueue_.addJob` during the call (0 or 1). -/
def runCheckpoint (cp : WALCheckpointer) (pages : Int) : WALCheckpointer × Nat :=
  if pages < checkpointPageCount then
    (cp, 0)
  else if cp.running_ then
    (cp, 0)
  else
    ({ cp with running_ := true }, 1)

/-- `WALCheckpointer::checkpoint ()` (SociDB.cpp lines 260-280): runs the
passive checkpoint primitive (its sqlite result code `ret` is an input
here), logs at a severity depending on `ret`, and finally clears `running_`
under the mutex.  Returns the updated state and the log severity used. -/
def checkpoint (cp : WALCheckpointer) (ret : Int) : WALCheckpointer × LogLevel :=
  let severity :=
    if ret ≠ SQLITE_OK then
      if ret = SQLITE_LOCKED then LogLevel.lsTRACE else LogLevel.lsWARNING
    else LogLevel.lsTRACE
  ({ cp with running_ := false }, severity)

/-- `WALCheckpointer::sqliteWALHook (void* cp, sqlite3*, const char* dbName,
int walSize)` (SociDB.cpp lines 202-211).  The `void*` argument is the
pointer registered with `sqlite3_wal_hook`; `none` models a null pointer.
On a non-null pointer the hook forwards to `runCheckpoint` and returns
`SQLITE_OK`; on a null pointer it throws. -/
def sqliteWALHook (cp : Option WALCheckpointer) (walSize : Int) :
    Except String (WALCheckpointer × Nat × Int) :=
  match cp with
  | some checkpointer =>
      let (cp2, jobs) := runCheckpoint checkpointer walSize
      .ok (cp2, jobs, SQLITE_OK)
  | none => .error "Didn't get a WALCheckpointer"

/-- Whole-coordinator state for the concurrency claims: the checkpointer's
own flag plus the ghost count of checkpoint jobs currently queued or
executing on the `JobQueue`. -/
structure CpSystem where
  cp : WALCheckpointer
  inFlight : Nat
  deriving DecidableEq, Repr

/-- State right after the `WALCheckpointer` constructor (SociDB.cpp lines
213-218): `running_ = false`, no job submitted yet. -/
def cpSystemInit : CpSystem := ⟨⟨false⟩, 0⟩

/-- Events observable at a coordinator: a log-growth notification with a
page count (delivered through the wal hook into `runCheckpoint`), or the
completion of a previously submitted checkpoint job with sqlite result
`ret` (the tail of `WALCheckpointer::checkpoint`).  A completion event with
no job in flight is impossible and leaves the state unchanged. -/
inductive CpEvent where
  | logGrowth (pages : Int)
  | jobFinished (ret : Int)

/-- One step of the coordinator. -/
def cpSystemStep (s : CpSystem) : CpEvent → CpSystem
  | .logGrowth pages =>
      let (cp2, jobs) := runCheckpoint s.cp pages
      { cp := cp2, inFlight := s.inFlight + jobs }
  | .jobFinished ret =>
      if s.inFlight = 0 then s
      else { cp := (checkpoint s.cp ret).1, inFlight := s.inFlight - 1 }

/-- Run a sequence of events from the freshly constructed coordinator. -/
def cpSystemRun (events : List CpEvent) : CpSystem :=
  events.foldl cpSystemStep cpSystemInit

/-- The coordinator invariant: the number of checkpoint jobs queued or
executing equals the indicator of `running_`. -/
def CpInv (s : CpSystem) : Prop :=
  s.inFlight = if s.cp.running_ then 1 else 0

end SociDB

namespace RPCSubModel

/-- The mutable state of an `RPCSub` subscriber that the claims are about:
the sequence counter `mSeq`, the bounded deque `mDeque` (front at the head
of the list, `push_back` appends at the tail), and the `mSending` flag.
`V` is the payload type (`Json::Value`).  Ghost fields: `stamped` records
every `(seq, payload)` pair ever pushed, in push order, whether or not it
is later evicted; `delivered` records the sequence numbers of the entries
handed to `RPCCall::fromNetwork` by the drain worker, in attempt order. -/
structure RPCSubState (V : Type) where
  mSeq : Nat
  mDeque : List (Nat × V)
  mSending : Bool
  stamped : List (Nat × V)
  delivered : List Nat
  deriving DecidableEq, Repr

/-- Subscriber state right after the `RPCSub` constructor: `mSeq = 1`,
empty queue, `mSending = false` (circle.yml part lines 71 and 88). -/
def rpcSubInit (V : Type) : RPCSubState V :=
  { mSeq := 1, mDeque := [], mSending := false, stamped := [], delivered := [] }

/-- `RPCSub::send (const Json::Value& jvObj, bool broadcast)` (circle.yml
part lines 155-181), for queue capacity `eventQueueMax = capacity` (the
constant itself is declared outside this slice).  Under `mLock`: if the
deque is at or above capacity, `mDeque.pop_back ()` drops the entry at the
back; then the new entry is stamped `mSeq++` and appended at the back; if
`mSending` is false it is set and one drain job is submitted (job
submission itself has no further state here; `mSending = true` records
it). -/
def send (capacity : Nat) (s : RPCSubState V) (jvObj : V) : RPCSubState V :=
  let dq := if capacity ≤ s.mDeque.length then s.mDeque.dropLast else s.mDeque
  { mSeq := s.mSeq + 1
    mDeque := dq ++ [(s.mSeq, jvObj)]
    mSending := true
    stamped := s.stamped ++ [(s.mSeq, jvObj)]
    delivered := s.delivered }

/-- Push a whole list of payloads, oldest first, starting from the fresh
subscriber state. -/
def pushAll (capacity : Nat) (objs : List V) : RPCSubState V :=
  objs.foldl (send capacity) (rpcSubInit V)

/-- `(k, x) :: (k+1, x') :: ...`: the stamps the subscriber hands out to a
run of pushes when its counter starts at `k`. -/
def stampFrom (k : Nat) : List V → List (Nat × V)
  | [] => []
  | x :: rest => (k, x) :: stampFrom (k + 1) rest

/-- Events at one subscriber: a producer push (`RPCSub::send`), or one
iteration of the drain worker `RPCSub::sendThread` (circle.yml part lines
101-153).  `deliveryOk` tells whether `RPCCall::fromNetwork` succeeded or
threw; the `catch` block only logs, so the iteration's effect on the
subscriber state cannot depend on it. -/
inductive SubEvent (V : Type) where
  | push (jvObj : V)
  | drainStep (deliveryOk : Bool)

/-- One step of the subscriber.  A drain iteration with an empty deque
clears `mSending` and the worker exits; otherwise it pops the front entry
and attempts delivery (recorded in `delivered` whatever the outcome — a
failed entry is not requeued).  A drain event while no worker is active
(`mSending = false`) cannot occur and leaves the state unchanged. -/
def subStep (capacity : Nat) (s : RPCSubState V) : SubEvent V → RPCSubState V
  | .push jvObj => send capacity s jvObj
  | .drainStep _deliveryOk =>
      if s.mSending then
        match s.mDeque with
        | [] => { s with mSending := false }
        | e :: rest => { s with mDeque := rest, delivered := s.delivered ++ [e.1] }
      else s

/-- Run a sequence of subscriber events from the fresh state. -/
def subRun (capacity : Nat) (events : List (SubEvent V)) : RPCSubState V :=
  events.foldl (subStep capacity) (rpcSubInit V)

/-- The subscriber invariant: the delivery-attempt history followed by the
stamps still queued is strictly increasing, and every stamp ever issued is
below the counter. -/
def SubInv (s : RPCSubState V) : Prop :=
  List.Pairwise (· < ·) (s.delivered ++ s.mDeque.map Prod.fst)
  ∧ ∀ a ∈ s.delivered ++ s.mDeque.map Prod.fst, a < s.mSeq

end RPCSubModel

namespace SociDBCreate

/-- A `soci::session` as far as `getConnection` looks at it: whether the
backend is the sqlite3 one (the `dynamic_cast` succeeds) and the raw
`conn_` pointer of that backend (`0` = null). -/
structure Session where
  backendIsSqlite : Bool
  conn_ : Nat
  deriving DecidableEq, Repr

/-- `static sqlite_api::sqlite3* getConnection (soci::session& s)`
(SociDB.cpp lines 109-121): `result` stays null unless the backend cast
succeeds, and a null `result` is turned into a thrown `std::logic_error` —
so the function never returns a null pointer. -/
def getConnection (s : Session) : Except String Nat :=
  let result : Nat := if s.backendIsSqlite then s.conn_ else 0
  if result = 0 then .error "Didn't get a database connection."
  else .ok result

/-- The observable result of `std::make_unique<WALCheckpointer>(*conn, queue)`
(SociDB.cpp lines 213-218): the coordinator holds the connection and the
constructor passes `this` to `sqlite3_wal_hook`, so the connection's hook
target is the new coordinator itself (`hookTarget = some conn` identifies
the registration on that connection). -/
structure Handle where
  conn : Nat
  hookRegistered : Bool
  running_ : Bool
  deriving DecidableEq, Repr

/-- `std::unique_ptr<Checkpointer> makeCheckpointer (soci::session&, JobQueue&)`
(SociDB.cpp lines 284-290).  `.ok none` is the empty `return {};` — only
reachable if `getConnection` returned a null pointer, which it never
does. -/
def makeCheckpointer (s : Session) : Except String (Option Handle) :=
  match getConnection s with
  | .error e => .error e
  | .ok conn =>
      if conn ≠ 0 then .ok (some { conn := conn, hookRegistered := true, running_ := false })
      else .ok none

end SociDBCreate

namespace SociDBLifecycle

/-- The coordinator/connection pair as the lifecycle claims see it:
`hookTarget` is the pointer currently registered with `sqlite3_wal_hook` on
the connection (`none` = no hook), `threadStarted`/`threadStopped` track the
owned `beast::Thread`, and `destroyed` marks that `~WALCheckpointer` has
completed. -/
structure CpLifecycle where
  hookTarget : Option Nat
  threadStarted : Bool
  threadStopped : Bool
  destroyed : Bool
  deriving DecidableEq, Repr

/-- The `WALCheckpointer` constructor (SociDB.cpp lines 213-218):
`startThread ()` then `sqlite3_wal_hook (&conn_, &sqliteWALHook, this)`.
`self` is the coordinator's own address (non-null). -/
def walCheckpointerCtor (self : Nat) : CpLifecycle :=
  { hookTarget := some self
    threadStarted := true
    threadStopped := false
    destroyed := false }

/-- `WALCheckpointer::~WALCheckpointer ()` (SociDB.cpp lines 220-223): the
whole body is `stopThread ()`.  In particular `sqlite3_wal_hook` is not
called again, so the hook registration on the connection is untouched. -/
def walCheckpointerDtor (s : CpLifecycle) : CpLifecycle :=
  { s with threadStopped := true, destroyed := true }

/-- A post-destruction log-growth event: the engine fires the wal hook at
whatever target is still registered on the connection.  `true` iff the
callback reaches a coordinator. -/
def growthEventInvokesCallback (s : CpLifecycle) : Bool :=
  s.hookTarget.isSome

end SociDBLifecycle

namespace RPCSubCtor

/-- What `parseUrl` yields on success (scheme, ip, port, path); a negative
`mPort` means the URL specified no port. -/
structure ParsedUrl where
  strScheme : String
  mIp : String
  mPort : Int
  mPath : String
  deriving DecidableEq, Repr

/-- The subscriber fields the `RPCSub` constructor establishes. -/
structure CtorState where
  mSSL : Bool
  mSeq : Nat
  mIp : String
  mPort : Int
  mPath : String
  deriving DecidableEq, Repr

/-- The body of `RPCSub::RPCSub` (circle.yml part lines 61-98), with the
result of `parseUrl (strUrl, ...)` as input (`none` = parse failure).
`mSSL` is initialized `false`; a parse failure throws; scheme `https` sets
`mSSL`; any scheme other than `https`/`http` throws; `mSeq = 1`; a negative
parsed port defaults to 443 under SSL and 80 otherwise. -/
def rpcSubCtorBody (parsed : Option ParsedUrl) : Except String CtorState :=
  match parsed with
  | none => .error "Failed to parse url."
  | some u =>
      let mSSL := u.strScheme == "https"
      if u.strScheme ≠ "https" ∧ u.strScheme ≠ "http" then
        .error "Only http and https is supported."
      else
        let mSeq := 1
        let mPort := if u.mPort < 0 then (if mSSL then 443 else 80) else u.mPort
        .ok { mSSL := mSSL, mSeq := mSeq, mIp := u.mIp, mPort := mPort, mPath := u.mPath }

end RPCSubCtor

namespace SociDB

lemma cpInv_step (s : CpSystem) (h : CpInv s) (e : CpEvent) : CpInv (cpSystemStep s e) := by
  cases e with
  | logGrowth pages =>
      by_cases hlt : pages < checkpointPageCount
      · simpa [CpInv, cpSystemStep, runCheckpoint, hlt] using h
      · by_cases hr : s.cp.running_
        · simpa [CpInv, cpSystemStep, runCheckpoint, hlt, hr] using h
        · simp only [CpInv, hr, if_false] at h
          simp [CpInv, cpSystemStep, runCheckpoint, hlt, hr, h]
  | jobFinished ret =>
      by_cases h0 : s.inFlight = 0
      · simpa [cpSystemStep, h0] using h
      · have hr : s.cp.running_ = true := by
          by_contra hr
          simp only [CpInv, Bool.not_eq_true] at h hr
          rw [hr] at h
          simp at h
          exact h0 h
        simp only [CpInv, hr, if_true] at h
        simp [CpInv, cpSystemStep, h0, checkpoint, h]

lemma cpInv_run (events : List CpEvent) : CpInv (cpSystemRun events) := by
  have general : ∀ s : CpSystem, CpInv s → CpInv (events.foldl cpSystemStep s) := by
    induction events with
    | nil => intro s h; simpa using h
    | cons e rest ih =>
        intro s h
        exact ih (cpSystemStep s e) (cpInv_step s h e)
  exact general cpSystemInit (by simp [CpInv, cpSystemInit])

/-- Claim C1: for every invocation of `runCheckpoint (dbName, pageCount)`:
below the 1000-page threshold the coordinator changes nothing and submits
no job; at or above the threshold with `running_` false it sets `running_`
and submits exactly one checkpoint job; at or above the threshold with
`running_` already true it submits nothing and leaves the state
unchanged. -/
theorem runCheckpoint_cases (cp : WALCheckpointer) (pages : Int) :
    (pages < checkpointPageCount → runCheckpoint cp pages = (cp, 0))
    ∧ (checkpointPageCount ≤ pages → cp.running_ = false →
        runCheckpoint cp pages = ({ running_ := true }, 1))
    ∧ (checkpointPageCount ≤ pages → cp.running_ = true →
        runCheckpoint cp pages = (cp, 0)) := by
  refine ⟨fun hlt => ?_, fun hge hr => ?_, fun hge hr => ?_⟩
  · simp [runCheckpoint, hlt]
  · simp [runCheckpoint, not_lt.mpr hge, hr]
  · simp [runCheckpoint, not_lt.mpr hge, hr]

/-- Witness for `runCheckpoint_cases` at pages 500 and 1500. -/
theorem runCheckpoint_cases_witness :
    runCheckpoint ⟨false⟩ 500 = (⟨false⟩, 0)
    ∧ runCheckpoint ⟨false⟩ 1500 = (⟨true⟩, 1)
    ∧ runCheckpoint ⟨true⟩ 1500 = (⟨true⟩, 0) :=
  ⟨(runCheckpoint_cases ⟨false⟩ 500).1 (by decide),
   (runCheckpoint_cases ⟨false⟩ 1500).2.1 (by decide) rfl,
   (runCheckpoint_cases ⟨true⟩ 1500).2.2 (by decide) rfl⟩

/-- Claim C2: over every sequence of interleaved log-growth notifications
and checkpoint-job completions, at most one checkpoint job is queued or
executing; the in-flight count always equals the `running_` indicator, a
job is submitted only when `running_` is false, and submission sets
`running_`. -/
theorem atMostOneCheckpointJob (events : List CpEvent) :
    (cpSystemRun events).inFlight ≤ 1
    ∧ CpInv (cpSystemRun events)
    ∧ ∀ (cp : WALCheckpointer) (pages : Int),
        (runCheckpoint cp pages).2 = 1 →
          cp.running_ = false ∧ (runCheckpoint cp pages).1.running_ = true := by
  have hinv := cpInv_run events
  refine ⟨?_, hinv, ?_⟩
  · rw [CpInv] at hinv
    rcases Bool.eq_false_or_eq_true (cpSystemRun events).cp.running_ with h | h <;>
      simp [h] at hinv <;> omega
  · intro cp pages hjob
    by_cases hlt : pages < checkpointPageCount
    · simp [runCheckpoint, hlt] at hjob
    · by_cases hr : cp.running_
      · simp [runCheckpoint, hlt, hr] at hjob
      · simp only [Bool.not_eq_true] at hr
        exact ⟨hr, by simp [runCheckpoint, hlt, hr]⟩

/-- Witness for `atMostOneCheckpointJob`: a burst of two qualifying
notifications then a completion yields at most one in-flight job, and a
concrete submitting call had `running_ = false` and set it. -/
theorem atMostOneCheckpointJob_witness :
    (cpSystemRun [CpEvent.logGrowth 1500, CpEvent.logGrowth 2000,
        CpEvent.jobFinished 0]).inFlight ≤ 1
    ∧ ((⟨false⟩ : WALCheckpointer).running_ = false
        ∧ (runCheckpoint ⟨false⟩ 1500).1.running_ = true) :=
  ⟨(atMostOneCheckpointJob
      [CpEvent.logGrowth 1500, CpEvent.logGrowth 2000, CpEvent.jobFinished 0]).1,
   (atMostOneCheckpointJob []).2.2 ⟨false⟩ 1500 rfl⟩

/-- Claim C5: whatever sqlite result code the checkpoint primitive returns
(`SQLITE_OK`, `SQLITE_LOCKED` contention, or any other failure), the tail
of `WALCheckpointer::checkpoint` clears `running_`, so a subsequent
notification at or above the threshold submits a new checkpoint job. -/
theorem checkpoint_clears_running (cp : WALCheckpointer) (ret : Int) :
    ((checkpoint cp ret).1.running_ = false)
    ∧ (∀ pages : Int, checkpointPageCount ≤ pages →
        (runCheckpoint (checkpoint cp ret).1 pages).2 = 1) := by
  refine ⟨by simp [checkpoint], fun pages hge => ?_⟩
  simp [runCheckpoint, checkpoint, not_lt.mpr hge]

/-- Witness for `checkpoint_clears_running`: a `SQLITE_LOCKED` completion
clears the flag and a 1500-page notification then submits one job. -/
theorem checkpoint_clears_running_witness :
    ((checkpoint ⟨true⟩ SQLITE_LOCKED).1.running_ = false)
    ∧ (runCheckpoint (checkpoint ⟨true⟩ SQLITE_LOCKED).1 1500).2 = 1 :=
  ⟨(checkpoint_clears_running ⟨true⟩ SQLITE_LOCKED).1,
   (checkpoint_clears_running ⟨true⟩ SQLITE_LOCKED).2 1500 (by decide)⟩

/-- Claim C8: when the static wal hook is invoked with the non-null
coordinator pointer that the constructor registered, the error branch is
unreachable: the hook only forwards to `runCheckpoint` (which schedules at
most one job) and returns `SQLITE_OK`, never an error. -/
theorem sqliteWALHook_nonNull_ok (cp : WALCheckpointer) (walSize : Int) :
    sqliteWALHook (some cp) walSize
      = .ok ((runCheckpoint cp walSize).1, (runCheckpoint cp walSize).2, SQLITE_OK)
    ∧ ∀ e : String, sqliteWALHook (some cp) walSize ≠ .error e := by
  constructor
  · simp [sqliteWALHook]
  · intro e hcontra
    simp [sqliteWALHook] at hcontra

/-- Claim C4 (code bug): `~WALCheckpointer` is just `stopThread ()` and
never clears the `sqlite3_wal_hook` registration, so after destruction the
engine's next log-growth event still dispatches to the registered (now
dangling) coordinator pointer — the callback count after destroy is not
zero. -/
theorem dtor_leaves_hook_registered :
    (SociDBLifecycle.walCheckpointerDtor (SociDBLifecycle.walCheckpointerCtor 1)).destroyed = true
    ∧ (SociDBLifecycle.walCheckpointerDtor
        (SociDBLifecycle.walCheckpointerCtor 1)).hookTarget = some 1
    ∧ SociDBLifecycle.growthEventInvokesCallback
        (SociDBLifecycle.walCheckpointerDtor (SociDBLifecycle.walCheckpointerCtor 1)) = true := by
  decide

end SociDB

namespace SociDBCreate

/-- Counterexample to claim C6 as stated: on an unusable connection (the
backend cast succeeds but `conn_` is null) `makeCheckpointer` does not
return an empty handle — the `std::logic_error` thrown by `getConnection`
propagates out of the call. -/
theorem makeCheckpointer_unusable_cex :
    makeCheckpointer ⟨true, 0⟩ = .error "Didn't get a database connection."
    ∧ makeCheckpointer ⟨true, 0⟩ ≠ .ok none := by
  refine ⟨rfl, ?_⟩
  intro hcontra
  simp [makeCheckpointer, getConnection] at hcontra

/-- Claim C6 (amended): if the session yields a usable connection,
`makeCheckpointer` returns a non-empty handle registered as the
connection's log-growth observer; if the connection is unusable the call
throws (`getConnection`'s logic_error propagates) instead of returning an
empty handle; and it never returns successfully with an empty handle. -/
theorem makeCheckpointer_spec (s : Session) :
    (s.backendIsSqlite = true → s.conn_ ≠ 0 →
      makeCheckpointer s
        = .ok (some { conn := s.conn_, hookRegistered := true, running_ := false }))
    ∧ (s.backendIsSqlite = false ∨ s.conn_ = 0 →
      makeCheckpointer s = .error "Didn't get a database connection.")
    ∧ (∀ h : Option Handle, makeCheckpointer s = .ok h → h.isSome) := by
  refine ⟨fun hb hc => ?_, fun hbad => ?_, fun h hok => ?_⟩
  · simp [makeCheckpointer, getConnection, hb, hc]
  · rcases hbad with hb | hc
    · simp [makeCheckpointer, getConnection, hb]
    · by_cases hb : s.backendIsSqlite <;> simp [makeCheckpointer, getConnection, hb, hc]
  · by_cases hb : s.backendIsSqlite
    · by_cases hc : s.conn_ = 0
      · simp [makeCheckpointer, getConnection, hb, hc] at hok
      · simp [makeCheckpointer, getConnection, hb, hc] at hok
        simp [← hok]
    · simp [makeCheckpointer, getConnection, hb] at hok

/-- Witness for `makeCheckpointer_spec` on a usable and an unusable
session. -/
theorem makeCheckpointer_spec_witness :
    makeCheckpointer ⟨true, 7⟩ = .ok (some { conn := 7, hookRegistered := true, running_ := false })
    ∧ makeCheckpointer ⟨false, 7⟩ = .error "Didn't get a database connection." :=
  ⟨(makeCheckpointer_spec ⟨true, 7⟩).1 rfl (by decide),
   (makeCheckpointer_spec ⟨false, 7⟩).2.1 (Or.inl rfl)⟩

end SociDBCreate

namespace RPCSubCtor

/-- Claim C10: `RPCSub::RPCSub` throws iff the URL fails to parse or its
scheme is neither `http` nor `https`; on success `mSSL` holds exactly for
`https`, `mSeq` starts at 1, and a URL with no port (negative parsed port)
defaults to 443 under SSL and 80 otherwise. -/
theorem rpcSubCtorBody_spec (parsed : Option ParsedUrl) :
    (parsed = none → rpcSubCtorBody parsed = .error "Failed to parse url.")
    ∧ (∀ u, parsed = some u → u.strScheme ≠ "https" → u.strScheme ≠ "http" →
        rpcSubCtorBody parsed = .error "Only http and https is supported.")
    ∧ (∀ u, parsed = some u → u.strScheme = "https" ∨ u.strScheme = "http" →
        rpcSubCtorBody parsed = .ok
          { mSSL := u.strScheme == "https"
            mSeq := 1
            mIp := u.mIp
            mPort := if u.mPort < 0 then (if u.strScheme == "https" then 443 else 80)
                     else u.mPort
            mPath := u.mPath }) := by
  refine ⟨fun hnone => by simp [hnone, rpcSubCtorBody], fun u hu hh hs => ?_, fun u hu hok => ?_⟩
  · subst hu
    simp [rpcSubCtorBody, hh, hs]
  · subst hu
    rcases hok with hs | hs <;> simp [rpcSubCtorBody, hs]

/-- Witness for `rpcSubCtorBody_spec` on a parse failure, an unsupported
scheme, and portless `https` and `http` URLs. -/
theorem rpcSubCtorBody_spec_witness :
    rpcSubCtorBody none = .error "Failed to parse url."
    ∧ rpcSubCtorBody (some ⟨"ftp", "host", 21, "/"⟩)
        = .error "Only http and https is supported."
    ∧ rpcSubCtorBody (some ⟨"https", "host", -1, "/p"⟩)
        = .ok { mSSL := true, mSeq := 1, mIp := "host", mPort := 443, mPath := "/p" }
    ∧ rpcSubCtorBody (some ⟨"http", "host", -1, "/p"⟩)
        = .ok { mSSL := false, mSeq := 1, mIp := "host", mPort := 80, mPath := "/p" } := by
  refine ⟨(rpcSubCtorBody_spec none).1 rfl,
    (rpcSubCtorBody_spec _).2.1 ⟨"ftp", "host", 21, "/"⟩ rfl (by decide) (by decide), ?_, ?_⟩
  · have h := (rpcSubCtorBody_spec _).2.2 ⟨"https", "host", -1, "/p"⟩ rfl (Or.inl rfl)
    simpa using h
  · have h := (rpcSubCtorBody_spec _).2.2 ⟨"http", "host", -1, "/p"⟩ rfl (Or.inr rfl)
    simpa using h

end RPCSubCtor

namespace RPCSubModel

variable {V : Type}

lemma stampFrom_length (k : Nat) (objs : List V) : (stampFrom k objs).length = objs.length := by
  induction objs generalizing k with
  | nil => rfl
  | cons x rest ih => simp [stampFrom, ih]

lemma stampFrom_take (k n : Nat) (objs : List V) :
    (stampFrom k objs).take n = stampFrom k (objs.take n) := by
  induction objs generalizing k n with
  | nil => simp [stampFrom]
  | cons x rest ih =>
      cases n with
      | zero => simp [stampFrom]
      | succ m => simp [stampFrom, ih]

lemma stampFrom_map_fst (k : Nat) (objs : List V) :
    (stampFrom k objs).map Prod.fst = List.range' k objs.length := by
  induction objs generalizing k with
  | nil => rfl
  | cons x rest ih => simp [stampFrom, List.range'_succ, ih]

lemma foldl_send_seq_stamped (capacity : Nat) (objs : List V) (s : RPCSubState V) :
    (objs.foldl (send capacity) s).mSeq = s.mSeq + objs.length
    ∧ (objs.foldl (send capacity) s).stamped = s.stamped ++ stampFrom s.mSeq objs := by
  induction objs generalizing s with
  | nil => simp [stampFrom]
  | cons x rest ih =>
      have h := ih (send capacity s x)
      simp only [List.foldl_cons]
      constructor
      · rw [h.1]
        have hseq : (send capacity s x).mSeq = s.mSeq + 1 := rfl
        rw [hseq]
        simp only [List.length_cons]
        omega
      · rw [h.2]
        simp [send, stampFrom, List.append_assoc]

lemma foldl_send_not_full (capacity : Nat) (objs : List V) (s : RPCSubState V)
    (h : s.mDeque.length + objs.length ≤ capacity) :
    (objs.foldl (send capacity) s).mDeque = s.mDeque ++ stampFrom s.mSeq objs := by
  induction objs generalizing s with
  | nil => simp [stampFrom]
  | cons x rest ih =>
      have hlt : ¬ capacity ≤ s.mDeque.length := by
        simp only [List.length_cons] at h
        omega
      have hstep : (send capacity s x).mDeque = s.mDeque ++ [(s.mSeq, x)] := by
        simp [send, hlt]
      have hlen : (send capacity s x).mDeque.length + rest.length ≤ capacity := by
        rw [hstep]
        simp only [List.length_append, List.length_cons, List.length_nil] at h ⊢
        omega
      have hrec := ih (send capacity s x) hlen
      rw [List.foldl_cons, hrec, hstep]
      simp [send, stampFrom, List.append_assoc]

lemma foldl_send_full (capacity : Nat) (objs : List V) (s : RPCSubState V)
    (hc : 1 ≤ capacity) (hfull : s.mDeque.length = capacity) (hne : objs ≠ []) :
    (objs.foldl (send capacity) s).mDeque
      = s.mDeque.take (capacity - 1) ++ [(s.mSeq + objs.length - 1, objs.getLast hne)]
    ∧ (objs.foldl (send capacity) s).mDeque.length = capacity := by
  induction objs generalizing s with
  | nil => exact absurd rfl hne
  | cons x rest ih =>
      have hge : capacity ≤ s.mDeque.length := le_of_eq hfull.symm
      have hstep : (send capacity s x).mDeque = s.mDeque.dropLast ++ [(s.mSeq, x)] := by
        simp [send, hge]
      have hdropLen : s.mDeque.dropLast.length = capacity - 1 := by
        rw [List.length_dropLast, hfull]
      have hstepLen : (send capacity s x).mDeque.length = capacity := by
        rw [hstep]
        simp only [List.length_append, List.length_singleton, hdropLen]
        omega
      cases rest with
      | nil =>
          refine ⟨?_, by simpa using hstepLen⟩
          rw [List.foldl_cons, List.foldl_nil, hstep, List.dropLast_eq_take, hfull]
          simp [List.getLast]
      | cons y rest2 =>
          have hrec := ih (send capacity s x) hstepLen (by simp)
          rw [List.foldl_cons]
          refine ⟨?_, hrec.2⟩
          rw [hrec.1, hstep]
          have htake : (s.mDeque.dropLast ++ [(s.mSeq, x)]).take (capacity - 1)
              = s.mDeque.take (capacity - 1) := by
            rw [List.take_left' hdropLen, List.dropLast_eq_take, hfull]
          rw [htake]
          have hseq : (send capacity s x).mSeq = s.mSeq + 1 := rfl
          have hlast : (x :: y :: rest2).getLast hne = (y :: rest2).getLast (by simp) :=
            List.getLast_cons _
          rw [hseq, hlast]
          have harith : s.mSeq + 1 + (y :: rest2).length - 1
              = s.mSeq + (x :: y :: rest2).length - 1 := by
            simp only [List.length_cons]
            omega
          rw [harith]

end RPCSubModel

namespace RPCSubModel

set_option maxRecDepth 8000 in
/-- Counterexample to claim C3 as stated: pushing `capacity + 1 = 65`
entries at capacity 64 does not retain the newest 64 entries — the oldest
entry (stamp 1) is still buffered and the second-newest (stamp 64) was
evicted, so the deque differs from the newest-64 window. -/
theorem pushAll_drop_oldest_cex :
    ((1, 0) ∈ (pushAll 64 (List.range 65) : RPCSubState Nat).mDeque)
    ∧ ((64, 63) ∉ (pushAll 64 (List.range 65) : RPCSubState Nat).mDeque)
    ∧ (pushAll 64 (List.range 65) : RPCSubState Nat).mDeque
        ≠ stampFrom 2 ((List.range 65).drop 1) := by
  decide

/-- Claim C3 (amended): a push onto a full queue evicts the newest
*buffered* entry (`pop_back`, the back of the deque) and appends the new
entry, which is never itself the one dropped in that push; hence pushing
`capacity + k` entries (`k ≥ 1`) into an initially empty queue retains the
oldest `capacity - 1` entries followed by only the newest entry, in
original relative order, with the deque size capped at `capacity`. -/
theorem pushAll_overflow (capacity : Nat) (A B : List V)
    (hc : 1 ≤ capacity) (hA : A.length = capacity) (hB : B ≠ []) :
    (pushAll capacity (A ++ B)).mDeque
      = stampFrom 1 (A.take (capacity - 1)) ++ [(capacity + B.length, B.getLast hB)]
    ∧ (pushAll capacity (A ++ B)).mDeque.length = capacity
    ∧ ∀ (s : RPCSubState V) (x : V), capacity ≤ s.mDeque.length →
        (send capacity s x).mDeque = s.mDeque.dropLast ++ [(s.mSeq, x)] := by
  have hsplit : pushAll capacity (A ++ B)
      = B.foldl (send capacity) (A.foldl (send capacity) (rpcSubInit V)) := by
    simp [pushAll, List.foldl_append]
  have hfillDeque : (A.foldl (send capacity) (rpcSubInit V)).mDeque = stampFrom 1 A := by
    have h := foldl_send_not_full capacity A (rpcSubInit V) (by simp [rpcSubInit, hA])
    simpa [rpcSubInit] using h
  have hfillSeq : (A.foldl (send capacity) (rpcSubInit V)).mSeq = 1 + A.length :=
    (foldl_send_seq_stamped capacity A (rpcSubInit V)).1
  have hfillLen : (A.foldl (send capacity) (rpcSubInit V)).mDeque.length = capacity := by
    rw [hfillDeque, stampFrom_length, hA]
  have hfull := foldl_send_full capacity B (A.foldl (send capacity) (rpcSubInit V))
    hc hfillLen hB
  refine ⟨?_, ?_, fun s x hge => by simp [send, hge]⟩
  · rw [hsplit, hfull.1, hfillDeque, hfillSeq, stampFrom_take, hA]
    have harith : 1 + capacity + B.length - 1 = capacity + B.length := by omega
    rw [harith]
  · rw [hsplit, hfull.2]

/-- Witness for `pushAll_overflow` at capacity 2 with pushes
`[10, 20, 30]`: the oldest entry `(1, 10)` and the newest `(3, 30)` are
retained; the middle entry `(2, 20)` was the one evicted. -/
theorem pushAll_overflow_witness :
    (pushAll 2 [10, 20, 30] : RPCSubState Nat).mDeque = [(1, 10), (3, 30)]
    ∧ (pushAll 2 [10, 20, 30] : RPCSubState Nat).mDeque.length = 2 := by
  have h := pushAll_overflow 2 [10, 20] [30] (by decide) (by decide) (by decide)
  exact ⟨by simpa [stampFrom] using h.1, by simpa using h.2.1⟩

/-- Claim C9: the sequence counter starts at 1 and each push increments it
by exactly one, so the n-th push ever is stamped n — entries later evicted
on overflow included, which still consume their number — and the stamps
handed out are `[1, ..., n]`, pairwise distinct (never reused). -/
theorem send_stamps_sequentially (capacity : Nat) (objs : List V) :
    (pushAll capacity objs).stamped = stampFrom 1 objs
    ∧ (pushAll capacity objs).mSeq = objs.length + 1
    ∧ (pushAll capacity objs).stamped.map Prod.fst = List.range' 1 objs.length
    ∧ ((pushAll capacity objs).stamped.map Prod.fst).Nodup := by
  have h := foldl_send_seq_stamped capacity objs (rpcSubInit V)
  have hstamped : (pushAll capacity objs).stamped = stampFrom 1 objs := by
    simpa [pushAll, rpcSubInit] using h.2
  have hfst : (pushAll capacity objs).stamped.map Prod.fst = List.range' 1 objs.length := by
    rw [hstamped, stampFrom_map_fst]
  refine ⟨hstamped, ?_, hfst, ?_⟩
  · have := h.1
    simp only [rpcSubInit] at this
    simpa [pushAll, rpcSubInit, Nat.add_comm] using this
  · rw [hfst]
    exact List.nodup_range' 1 objs.length

end RPCSubModel

namespace RPCSubModel

lemma subInv_step (capacity : Nat) (s : RPCSubState V) (h : SubInv s) (e : SubEvent V) :
    SubInv (subStep capacity s e) := by
  obtain ⟨hpair, hbound⟩ := h
  cases e with
  | push jvObj =>
      have hsub : (if capacity ≤ s.mDeque.length then s.mDeque.dropLast
          else s.mDeque).Sublist s.mDeque := by
        split
        · exact List.dropLast_sublist s.mDeque
        · exact List.Sublist.refl s.mDeque
      have hsubL : (s.delivered ++ (if capacity ≤ s.mDeque.length then s.mDeque.dropLast
          else s.mDeque).map Prod.fst).Sublist
          (s.delivered ++ s.mDeque.map Prod.fst) :=
        (hsub.map Prod.fst).append_left s.delivered
      have hpair2 := hpair.sublist hsubL
      have hbound2 : ∀ a ∈ s.delivered ++ (if capacity ≤ s.mDeque.length then s.mDeque.dropLast
          else s.mDeque).map Prod.fst, a < s.mSeq :=
        fun a ha => hbound a (hsubL.mem ha)
      constructor
      · show List.Pairwise (· < ·)
          (s.delivered ++ ((if capacity ≤ s.mDeque.length then s.mDeque.dropLast
            else s.mDeque) ++ [(s.mSeq, jvObj)]).map Prod.fst)
        rw [List.map_append, ← List.append_assoc]
        rw [List.pairwise_append]
        refine ⟨hpair2, by simp, fun a ha b hb => ?_⟩
        simp only [List.map_cons, List.map_nil, List.mem_singleton] at hb
        subst hb
        exact hbound2 a ha
      · show ∀ a ∈ s.delivered ++ ((if capacity ≤ s.mDeque.length then s.mDeque.dropLast
            else s.mDeque) ++ [(s.mSeq, jvObj)]).map Prod.fst, a < s.mSeq + 1
        intro a ha
        rw [List.map_append, ← List.append_assoc] at ha
        rcases List.mem_append.1 ha with ha | ha
        · exact Nat.lt_succ_of_lt (hbound2 a ha)
        · simp only [List.map_cons, List.map_nil, List.mem_singleton] at ha
          subst ha
          exact Nat.lt_succ_self _
  | drainStep deliveryOk =>
      by_cases hsending : s.mSending
      · cases hdq : s.mDeque with
        | nil =>
            have hstep : subStep capacity s (SubEvent.drainStep deliveryOk)
                = { s with mSending := false } := by
              simp [subStep, hsending, hdq]
            rw [hstep]
            exact ⟨hpair, hbound⟩
        | cons front rest =>
            have hstep : subStep capacity s (SubEvent.drainStep deliveryOk)
                = { s with mDeque := rest, delivered := s.delivered ++ [front.1] } := by
              simp [subStep, hsending, hdq]
            rw [hstep]
            rw [hdq] at hpair hbound
            have hshape : s.delivered ++ (front :: rest).map Prod.fst
                = (s.delivered ++ [front.1]) ++ rest.map Prod.fst := by
              simp
            rw [hshape] at hpair hbound
            exact ⟨hpair, hbound⟩
      · have hstep : subStep capacity s (SubEvent.drainStep deliveryOk) = s := by
          simp [subStep, hsending]
        rw [hstep]
        exact ⟨hpair, hbound⟩

lemma subInv_run (capacity : Nat) (events : List (SubEvent V)) :
    SubInv (subRun capacity events) := by
  have general : ∀ s : RPCSubState V, SubInv s →
      SubInv (events.foldl (subStep capacity) s) := by
    induction events with
    | nil => intro s h; simpa using h
    | cons e rest ih => intro s h; exact ih (subStep capacity s e) (subInv_step capacity s h e)
  refine general (rpcSubInit V) ⟨by simp [rpcSubInit], by simp [rpcSubInit]⟩

/-- Claim C7: over every interleaving of pushes and drain-worker
iterations, the sequence numbers of the delivery attempts are strictly
increasing — no duplicate and no re-delivery — and a drain iteration's
effect on the subscriber state is independent of whether the delivery
succeeded or threw: a failure neither stops the loop nor requeues the
failed entry. -/
theorem drain_delivery_ordered (capacity : Nat) (events : List (SubEvent V)) :
    List.Pairwise (· < ·) (subRun capacity events).delivered
    ∧ (subRun capacity events).delivered.Nodup
    ∧ ∀ (s : RPCSubState V) (ok1 ok2 : Bool),
        subStep capacity s (SubEvent.drainStep ok1) = subStep capacity s (SubEvent.drainStep ok2) := by
  have hinv := subInv_run capacity events
  have hpair : List.Pairwise (· < ·) (subRun capacity events).delivered :=
    hinv.1.sublist (List.sublist_append_left _ _)
  refine ⟨hpair, hpair.imp Nat.ne_of_lt, fun s ok1 ok2 => rfl⟩

end RPCSubModel

namespace SociDB

/-- Witness for `sqliteWALHook_nonNull_ok` at a concrete non-null pointer
and wal size. -/
theorem sqliteWALHook_nonNull_ok_witness :
    sqliteWALHook (some ⟨false⟩) 1500
      = .ok ((runCheckpoint ⟨false⟩ 1500).1, (runCheckpoint ⟨false⟩ 1500).2, SQLITE_OK)
    ∧ sqliteWALHook (some ⟨false⟩) 1500 ≠ .error "Didn't get a WALCheckpointer" :=
  ⟨(sqliteWALHook_nonNull_ok ⟨false⟩ 1500).1,
   (sqliteWALHook_nonNull_ok ⟨false⟩ 1500).2 "Didn't get a WALCheckpointer"⟩

end SociDB

namespace RPCSubModel

/-- Witness for `drain_delivery_ordered` on a concrete interleaving of two
pushes and three drain iterations, one of which fails. -/
theorem drain_delivery_ordered_witness :
    List.Pairwise (· < ·) (subRun 2 [SubEvent.push 10, SubEvent.drainStep true,
      SubEvent.push 20, SubEvent.push 30, SubEvent.drainStep false,
      SubEvent.drainStep true]).delivered
    ∧ subStep 2 (rpcSubInit Nat) (SubEvent.drainStep false)
        = subStep 2 (rpcSubInit Nat) (SubEvent.drainStep true) :=
  ⟨(drain_delivery_ordered 2 [SubEvent.push 10, SubEvent.drainStep true,
      SubEvent.push 20, SubEvent.push 30, SubEvent.drainStep false,
      SubEvent.drainStep true]).1,
   (drain_delivery_ordered 2 ([] : List (SubEvent Nat))).2.2 (rpcSubInit Nat) false true⟩

/-- Witness for `send_stamps_sequentially` at capacity 2 with three
pushes. -/
theorem send_stamps_sequentially_witness :
    (pushAll 2 [10, 20, 30] : RPCSubState Nat).stamped = stampFrom 1 [10, 20, 30]
    ∧ (pushAll 2 [10, 20, 30] : RPCSubState Nat).mSeq = 4
    ∧ ((pushAll 2 [10, 20, 30] : RPCSubState Nat).stamped.map Prod.fst).Nodup :=
  ⟨(send_stamps_sequentially 2 [10, 20, 30]).1,
   (send_stamps_sequentially 2 [10, 20, 30]).2.1,
   (send_stamps_sequentially 2 [10, 20, 30]).2.2.2⟩

end RPCSubModel
